import Mathlib

/-!
Shallow embedding of the task tracker (`my_module.py`): the `Task` entity
(construction, ordering, merge, completion marking, dependency iteration,
serialization to a field/value record) and the `TaskManager` collection
(add with auto-sort, mark-complete, key-based sort, save/load round trip).

Python conventions modelled explicitly:
  * optional arguments whose Python default is `None` are `Option` values,
    and the constructor's falsy tests (`due_date if due_date else ...`,
    `dependencies if dependencies else []`) are spelled out;
  * a raised exception is an `Except.error` with a constructor named after
    the spec's error taxonomy (`invalidInput` for the ValueError raised by
    the `validate_task` wrapper, `invalidPriority` for the KeyError raised
    by the `PRIORITY_LEVELS` lookup, `typeError` for the TypeError raised
    by `Task(**record)` on an unexpected keyword);
  * `datetime.now().strftime("%Y-%m-%d")` is an explicit `today` argument;
  * Python's `list.sort` is a stable sort driven by `__lt__` (an element
    precedes another iff not (later < earlier)); we realize it as
    Mathlib's stable `List.insertionSort` over that relation, and
    `list.sort(key=k)` likewise over `k a ≤ k b`;
  * `json.dump([task.__dict__ ...])` is modelled as the list of records
    each listing the instance attributes in insertion order; the JSON
    encode/decode of such records is the identity, so the file content is
    the record list itself.
-/

namespace TaskTracker

/-- Error taxonomy for the exceptions the Python code can raise on the
modelled paths: `ValueError` from the validate wrapper, `KeyError` from the
`PRIORITY_LEVELS` lookup, `TypeError` from `Task(**record)`. -/
inductive TaskError where
  | invalidInput
  | invalidPriority
  | typeError
deriving DecidableEq, Repr

/-- A JSON-representable attribute value as produced by serializing a task:
a string, a boolean, null, a number (the iteration cursor), or a list of
strings (the dependencies). -/
inductive JVal where
  | str (s : String)
  | bool (b : Bool)
  | null
  | num (n : Nat)
  | arr (l : List String)
deriving DecidableEq, Repr

/-- One `Task` instance. The first six fields are the attributes set by
`Task.__init__`; `iterIndex` models the Python attribute `_iter_index`,
absent (`none`) until `__iter__` has been called on the instance. -/
structure Task where
  name : String
  completed : Bool
  priority : String
  due_date : String
  category : Option String
  dependencies : List String
  iterIndex : Option Nat
deriving DecidableEq, Repr

/-- Lexicographic comparison of two character lists by code point — the
comparison Python applies to strings. Executable by structural recursion
(the ambient `String` order of the library is not kernel-reducible). -/
def listLt : List Char → List Char → Bool
  | _, [] => false
  | [], _ :: _ => true
  | a :: as, b :: bs =>
      if a.toNat < b.toNat then true
      else if b.toNat < a.toNat then false
      else listLt as bs

/-- Python's `<` on strings: lexicographic by code point. -/
def strLt (a b : String) : Bool :=
  listLt a.data b.data

/-- The class attribute `Task.PRIORITY_LEVELS = {"low": 1, "medium": 2,
"high": 3}`; `none` models a key that is absent (whose lookup raises
KeyError). -/
def PRIORITY_LEVELS (p : String) : Option Nat :=
  if p = "low" then some 1
  else if p = "medium" then some 2
  else if p = "high" then some 3
  else none

/-- `Task.__init__`. `today` stands for
`datetime.now().strftime("%Y-%m-%d")`. The falsy test on `due_date`
replaces both `None` and the empty string by today; the falsy test on
`dependencies` replaces `None` (and the already-empty list) by `[]`. No
field is validated. -/
def task_init (name : String) (priority : String) (due_date : Option String)
    (category : Option String) (dependencies : Option (List String))
    (completed : Bool) (today : String) : Task :=
  { name := name
    completed := completed
    priority := priority
    due_date :=
      match due_date with
      | some s => if s = "" then today else s
      | none => today
    category := category
    dependencies :=
      match dependencies with
      | some l => l
      | none => []
    iterIndex := none }

/-- `Task.__lt__`: compare the looked-up priority ranks, and on equal ranks
compare the due-date strings lexicographically; a priority absent from
`PRIORITY_LEVELS` raises KeyError. -/
def Task.lt (a b : Task) : Except TaskError Bool :=
  match PRIORITY_LEVELS a.priority, PRIORITY_LEVELS b.priority with
  | some ra, some rb =>
      Except.ok (if ra = rb then strLt a.due_date b.due_date else decide (ra < rb))
  | _, _ => Except.error TaskError.invalidPriority

/-- Priority rank with fallback 0 for an invalid priority. On every task
whose priority is in the enumeration this is exactly the
`PRIORITY_LEVELS` lookup of `Task.__lt__`; the fallback only covers inputs
on which the Python comparison raises instead. -/
def Task.rankD (t : Task) : Nat :=
  (PRIORITY_LEVELS t.priority).getD 0

/-- Total Boolean version of `Task.__lt__`, agreeing with `Task.lt`
whenever both priorities are valid (see `lt_agrees`); used to drive the
sort, which Python only runs without raising on valid priorities. -/
def Task.ltB (a b : Task) : Bool :=
  if a.rankD = b.rankD then strLt a.due_date b.due_date
  else decide (a.rankD < b.rankD)

/-- The ordering Python's stable `list.sort()` establishes from `__lt__`:
`a` may precede `b` iff not `b < a`. -/
def Task.leP (a b : Task) : Prop :=
  Task.ltB b a = false

instance : DecidableRel Task.leP :=
  fun _ _ => inferInstanceAs (Decidable (_ = _))

/-- The ordering Python's stable `list.sort(key=k)` establishes on
elements from the string comparison of their keys: `a` may precede `b`
iff not `k b < k a`. -/
def keyLe (key : Task → String) (a b : Task) : Prop :=
  strLt (key b) (key a) = false

instance (key : Task → String) : DecidableRel (keyLe key) :=
  fun _ _ => inferInstanceAs (Decidable (_ = _))

/-- `self.tasks.sort()`: Python's stable sort driven by `Task.__lt__`. -/
def sortTasks (l : List Task) : List Task :=
  List.insertionSort Task.leP l

/-- `Task.__add__` (merge): a new task named `"{a.name} & {b.name}"` whose
dependencies are the union of both dependency lists with duplicates
removed (`list(set(a) | set(b))`; the Python set order is unspecified, the
embedding picks one deduplicated enumeration), all other fields defaulted
by the constructor. -/
def Task.add (a b : Task) (today : String) : Task :=
  task_init (a.name ++ " & " ++ b.name) "medium" none none
    (some ((a.dependencies ++ b.dependencies).dedup)) false today

/-- The test of the `validate_task` wrapper on the positional arguments
after `self`: it passes iff there is a first argument, it is a string, and
its strip is non-empty (equivalently: not every character is whitespace);
otherwise the wrapper raises
`ValueError("Task name must be a non-empty string.")`. -/
def validate_passes (args : List String) : Bool :=
  match args with
  | [] => false
  | a :: _ => !(a.data.all Char.isWhitespace)

/-- `Task.mark_completed`, wrapped by `validate_task`. The bound method is
called with no positional arguments beyond `self`, so the wrapper always
sees an empty argument tuple. -/
def Task.mark_completed (t : Task) : Except TaskError (Task × String) :=
  if validate_passes [] then
    Except.ok ({ t with completed := true },
      "Task \x27" ++ t.name ++ "\x27 marked as completed.")
  else Except.error TaskError.invalidInput

/-- `Task.__iter__`: sets the instance attribute `_iter_index` to 0 and
returns the task itself. -/
def Task.iter (t : Task) : Task :=
  { t with iterIndex := some 0 }

/-- `Task.__next__`: yields the dependency at the cursor and advances it,
or signals exhaustion (`none`, Python's StopIteration). -/
def Task.next (t : Task) : Option (String × Task) :=
  match t.iterIndex with
  | some i =>
      match t.dependencies[i]? with
      | some d => some (d, { t with iterIndex := some (i + 1) })
      | none => none
  | none => none

/-- `task.__dict__` as serialized by `save_tasks`: the instance attributes
in insertion order — the six set by `__init__`, followed by `_iter_index`
when `__iter__` has ever been called on the instance. -/
def Task.toDict (t : Task) : List (String × JVal) :=
  [("name", JVal.str t.name),
   ("completed", JVal.bool t.completed),
   ("priority", JVal.str t.priority),
   ("due_date", JVal.str t.due_date),
   ("category", match t.category with
     | some c => JVal.str c
     | none => JVal.null),
   ("dependencies", JVal.arr t.dependencies)] ++
  (match t.iterIndex with
   | some i => [("_iter_index", JVal.num i)]
   | none => [])

/-- The task manager: an ordered list of tasks. -/
structure TaskManager where
  tasks : List Task
deriving DecidableEq, Repr

/-- `TaskManager.add_task`: construct the task (completed defaults to
false), append it, sort the whole list, return the confirmation
message. -/
def TaskManager.add_task (m : TaskManager) (name : String) (priority : String)
    (due_date : Option String) (category : Option String)
    (dependencies : Option (List String)) (today : String) :
    TaskManager × String :=
  let task := task_init name priority due_date category dependencies false today
  ({ tasks := sortTasks (m.tasks ++ [task]) },
   "Task \x27" ++ name ++ "\x27 added.")

/-- The loop body of `mark_task_complete`: set `completed := true` on the
first task with the given exact name, or report that none matched. -/
def markFirst (name : String) : List Task → Option (List Task)
  | [] => none
  | t :: ts =>
      if t.name = name then some ({ t with completed := true } :: ts)
      else (markFirst name ts).map (t :: ·)

/-- `TaskManager.mark_task_complete`: mark the first exact-name match
complete in place and confirm, or return the not-found message with the
collection untouched. No validation is applied to `name`. -/
def TaskManager.mark_task_complete (m : TaskManager) (name : String) :
    TaskManager × String :=
  match markFirst name m.tasks with
  | some ts => ({ tasks := ts }, "Task \x27" ++ name ++ "\x27 marked complete.")
  | none => (m, "Task \x27" ++ name ++ "\x27 not found.")

/-- `TaskManager.sort_tasks(key)`: Python's stable sort of the stored list
by the key function (keys compared as strings). -/
def TaskManager.sort_tasks (m : TaskManager) (key : Task → String) : TaskManager :=
  { tasks := List.insertionSort (keyLe key) m.tasks }

/-- `TaskManager.sort_tasks()` with the default key
`lambda task: task.priority`. -/
def TaskManager.sort_tasks_default (m : TaskManager) : TaskManager :=
  m.sort_tasks (fun t => t.priority)

/-- `TaskManager.get_all_tasks`: the stored sequence. -/
def TaskManager.get_all_tasks (m : TaskManager) : List Task :=
  m.tasks

/-- `TaskManager.save_tasks`: the file content written is
`[task.__dict__ for task in self.tasks]`. -/
def TaskManager.save_tasks (m : TaskManager) : List (List (String × JVal)) :=
  m.tasks.map Task.toDict

/-- The keyword parameters accepted by `Task.__init__`. -/
def INIT_PARAMS : List String :=
  ["name", "priority", "due_date", "category", "dependencies", "completed"]

/-- Look a field up in a serialized record. -/
def lookupField (r : List (String × JVal)) (k : String) : Option JVal :=
  (r.find? (fun kv => kv.1 = k)).map (fun kv => kv.2)

/-- `Task(**record)` as performed by `load_tasks`: a key outside the
constructor's parameter list (such as `_iter_index`) raises TypeError, a
missing `name` raises TypeError, every other missing field takes the
constructor default. Records produced by `save_tasks` carry each field
with the shape `save_tasks` gives it, which is what the extraction
matches. -/
def task_from_record (r : List (String × JVal)) (today : String) :
    Except TaskError Task :=
  if r.all (fun kv => INIT_PARAMS.contains kv.1) then
    match lookupField r "name" with
    | some (JVal.str n) =>
        let priority : String :=
          match lookupField r "priority" with
          | some (JVal.str p) => p
          | _ => "medium"
        let due_date : Option String :=
          match lookupField r "due_date" with
          | some (JVal.str d) => some d
          | _ => none
        let category : Option String :=
          match lookupField r "category" with
          | some (JVal.str c) => some c
          | _ => none
        let dependencies : Option (List String) :=
          match lookupField r "dependencies" with
          | some (JVal.arr l) => some l
          | _ => none
        let completed : Bool :=
          match lookupField r "completed" with
          | some (JVal.bool b) => b
          | _ => false
        Except.ok (task_init n priority due_date category dependencies completed today)
    | _ => Except.error TaskError.typeError
  else Except.error TaskError.typeError

/-- The list comprehension `[Task(**task) for task in tasks_data]`: records
are reconstructed left to right, the first raised error propagating. -/
def load_list (rs : List (List (String × JVal))) (today : String) :
    Except TaskError (List Task) :=
  match rs with
  | [] => Except.ok []
  | r :: rest => do
      let t ← task_from_record r today
      let ts ← load_list rest today
      Except.ok (t :: ts)

/-- `TaskManager.load_tasks` on an existing file whose content is `rs`:
replace the collection by the reconstructed tasks (the missing-file branch
is not modelled; no claim concerns it). -/
def TaskManager.load_tasks (rs : List (List (String × JVal))) (today : String) :
    Except TaskError TaskManager :=
  (load_list rs today).map (fun ts => { tasks := ts })

/-- The arguments of one `add_task` call. -/
structure AddCall where
  name : String
  priority : String
  due_date : Option String
  category : Option String
  dependencies : Option (List String)
deriving Repr

/-- Run a sequence of `add_task` calls on a manager, left to right. -/
def runAddsFrom (today : String) (m : TaskManager) : List AddCall → TaskManager
  | [] => m
  | c :: rest =>
      runAddsFrom today
        (m.add_task c.name c.priority c.due_date c.category c.dependencies today).1 rest

/-- Run a sequence of `add_task` calls on an initially empty manager. -/
def runAdds (today : String) (calls : List AddCall) : TaskManager :=
  runAddsFrom today { tasks := [] } calls

/-- Recognizer for a `YYYY-MM-DD` due-date string. -/
def isYMD (s : String) : Bool :=
  match s.data with
  | [y1, y2, y3, y4, h1, m1, m2, h2, d1, d2] =>
      y1.isDigit && y2.isDigit && y3.isDigit && y4.isDigit &&
      h1 == '-' && m1.isDigit && m2.isDigit &&
      h2 == '-' && d1.isDigit && d2.isDigit
  | _ => false

/-- Concrete task used in counterexamples: named "A", medium priority, one
dependency, dependency iteration started. -/
def exIterTask : Task :=
  Task.iter (task_init "A" "medium" (some "2024-01-01") none (some ["x"]) false "2024-01-01")

/-- A manager holding the iterated task. -/
def exIterMgr : TaskManager :=
  { tasks := [exIterTask] }

/-- A manager holding a single task named "A". -/
def exMgrA : TaskManager :=
  { tasks := [task_init "A" "medium" (some "2024-01-01") none none false "2024-01-01"] }

/-- A low-priority task named "L". -/
def exLow : Task :=
  task_init "L" "low" (some "2024-01-01") none none false "2024-01-01"

/-- A high-priority task named "H". -/
def exHigh : Task :=
  task_init "H" "high" (some "2024-01-01") none none false "2024-01-01"

/-- A medium-priority task named "M". -/
def exMed : Task :=
  task_init "M" "medium" (some "2024-01-01") none none false "2024-01-01"

/-- Merge operand with dependencies ["x", "y"]. -/
def exDepA : Task :=
  task_init "A" "medium" (some "2024-01-01") none (some ["x", "y"]) false "2024-01-01"

/-- Merge operand with dependencies ["y", "z"]. -/
def exDepB : Task :=
  task_init "B" "medium" (some "2024-01-01") none (some ["y", "z"]) false "2024-01-01"

/-- The two-add scenario of the end-to-end claim: add "Pay bills"
(high, due 2024-01-01) then "Clean house" (low, default due date). -/
def c1run (today : String) : TaskManager :=
  let m1 := (TaskManager.add_task { tasks := [] } "Pay bills" "high"
    (some "2024-01-01") none (some []) today).1
  (TaskManager.add_task m1 "Clean house" "low" none none (some []) today).1

/-! ### Order-theoretic facts about the string comparison -/

/-- The code-point comparison is asymmetric. -/
theorem listLt_asymm : ∀ l₁ l₂ : List Char, listLt l₁ l₂ = true → listLt l₂ l₁ = false
  | _, [], h => by simp [listLt] at h
  | [], _ :: _, _ => by simp [listLt]
  | a :: as, b :: bs, h => by
    simp only [listLt] at h ⊢
    by_cases hab : a.toNat < b.toNat
    · have : ¬ b.toNat < a.toNat := by omega
      simp [hab, this]
    · by_cases hba : b.toNat < a.toNat
      · simp [hab, hba] at h
      · simp only [hab, hba, if_neg, ite_false] at h ⊢
        exact listLt_asymm as bs h

/-- Two lists unrelated by the code-point comparison are equal. -/
theorem listLt_conn : ∀ l₁ l₂ : List Char,
    listLt l₁ l₂ = false → listLt l₂ l₁ = false → l₁ = l₂
  | [], [], _, _ => rfl
  | [], _ :: _, h, _ => by simp [listLt] at h
  | _ :: _, [], _, h => by simp [listLt] at h
  | a :: as, b :: bs, h₁, h₂ => by
    simp only [listLt] at h₁ h₂
    by_cases hab : a.toNat < b.toNat
    · simp [hab] at h₁
    · by_cases hba : b.toNat < a.toNat
      · simp [hba] at h₂
      · simp only [hab, hba, ite_false] at h₁ h₂
        have hc : a = b := by
          have hn : a.toNat = b.toNat := by omega
          have ha := Char.ofNat_toNat a
          have hb := Char.ofNat_toNat b
          rw [← ha, ← hb, hn]
        rw [hc, listLt_conn as bs h₁ h₂]

/-- The code-point comparison is transitive. -/
theorem listLt_trans : ∀ l₁ l₂ l₃ : List Char,
    listLt l₁ l₂ = true → listLt l₂ l₃ = true → listLt l₁ l₃ = true
  | _, _, [], _, h => by simp [listLt] at h
  | _, [], _ :: _, h, _ => by simp [listLt] at h
  | [], _ :: _, _ :: _, _, _ => by simp [listLt]
  | a :: as, b :: bs, c :: cs, h₁, h₂ => by
    simp only [listLt] at h₁ h₂ ⊢
    by_cases hab : a.toNat < b.toNat <;> by_cases hbc : b.toNat < c.toNat
    · have : a.toNat < c.toNat := by omega
      simp [this]
    · by_cases hcb : c.toNat < b.toNat
      · simp [hbc, hcb] at h₂
      · have hbceq : b.toNat = c.toNat := by omega
        have : a.toNat < c.toNat := by omega
        simp [this]
    · by_cases hba : b.toNat < a.toNat
      · simp [hab, hba] at h₁
      · have : a.toNat < c.toNat := by omega
        simp [this]
    · by_cases hba : b.toNat < a.toNat
      · simp [hab, hba] at h₁
      · by_cases hcb : c.toNat < b.toNat
        · simp [hbc, hcb] at h₂
        · have hac : ¬ a.toNat < c.toNat := by omega
          have hca : ¬ c.toNat < a.toNat := by omega
          simp only [hab, hba, ite_false] at h₁
          simp only [hbc, hcb, ite_false] at h₂
          simp only [hac, hca, ite_false]
          exact listLt_trans as bs cs h₁ h₂

/-- String version of `listLt_asymm`. -/
theorem strLt_asymm {a b : String} (h : strLt a b = true) : strLt b a = false :=
  listLt_asymm a.data b.data h

/-- String version of `listLt_conn`. -/
theorem strLt_conn {a b : String} (h₁ : strLt a b = false) (h₂ : strLt b a = false) :
    a = b := by
  cases a with
  | mk da =>
    cases b with
    | mk db => exact congrArg String.mk (listLt_conn da db h₁ h₂)

/-- String version of `listLt_trans`. -/
theorem strLt_trans {a b c : String} (h₁ : strLt a b = true) (h₂ : strLt b c = true) :
    strLt a c = true :=
  listLt_trans a.data b.data c.data h₁ h₂

/-! ### Order-theoretic facts about the task comparison -/

/-- On tasks whose priorities are both in the enumeration, `Task.__lt__`
returns exactly the value of its total Boolean model. -/
theorem lt_agrees {a b : Task} {ra rb : Nat}
    (ha : PRIORITY_LEVELS a.priority = some ra)
    (hb : PRIORITY_LEVELS b.priority = some rb) :
    Task.lt a b = Except.ok (Task.ltB a b) := by
  unfold Task.lt Task.ltB Task.rankD
  rw [ha, hb]
  rfl

/-- The Boolean task comparison is asymmetric. -/
theorem ltB_asymm {a b : Task} (h : Task.ltB a b = true) : Task.ltB b a = false := by
  unfold Task.ltB at h ⊢
  by_cases hr : a.rankD = b.rankD
  · rw [if_pos hr] at h
    rw [if_pos hr.symm]
    exact strLt_asymm h
  · rw [if_neg hr] at h
    rw [if_neg (fun hc => hr hc.symm)]
    simp only [decide_eq_true_eq] at h
    simp only [decide_eq_false_iff_not]
    omega

/-- Two tasks unrelated by the Boolean comparison agree on rank and
due date. -/
theorem ltB_conn {a b : Task} (h₁ : Task.ltB a b = false) (h₂ : Task.ltB b a = false) :
    a.rankD = b.rankD ∧ a.due_date = b.due_date := by
  unfold Task.ltB at h₁ h₂
  by_cases hr : a.rankD = b.rankD
  · rw [if_pos hr] at h₁
    rw [if_pos hr.symm] at h₂
    exact ⟨hr, strLt_conn h₁ h₂⟩
  · rw [if_neg hr] at h₁
    rw [if_neg (fun hc => hr hc.symm)] at h₂
    simp only [decide_eq_false_iff_not] at h₁ h₂
    omega

/-- The Boolean task comparison is transitive. -/
theorem ltB_trans {a b c : Task} (h₁ : Task.ltB a b = true) (h₂ : Task.ltB b c = true) :
    Task.ltB a c = true := by
  unfold Task.ltB at h₁ h₂ ⊢
  by_cases hab : a.rankD = b.rankD <;> by_cases hbc : b.rankD = c.rankD
  · rw [if_pos hab] at h₁
    rw [if_pos hbc] at h₂
    rw [if_pos (hab.trans hbc)]
    exact strLt_trans h₁ h₂
  · rw [if_neg hbc] at h₂
    simp only [decide_eq_true_eq] at h₂
    have : ¬ a.rankD = c.rankD := by omega
    rw [if_neg this]
    simp only [decide_eq_true_eq]
    omega
  · rw [if_neg hab] at h₁
    simp only [decide_eq_true_eq] at h₁
    have : ¬ a.rankD = c.rankD := by omega
    rw [if_neg this]
    simp only [decide_eq_true_eq]
    omega
  · rw [if_neg hab] at h₁
    rw [if_neg hbc] at h₂
    simp only [decide_eq_true_eq] at h₁ h₂
    have : ¬ a.rankD = c.rankD := by omega
    rw [if_neg this]
    simp only [decide_eq_true_eq]
    omega

instance : IsTotal Task Task.leP where
  total a b := by
    unfold Task.leP
    by_cases h : Task.ltB b a = true
    · right
      exact ltB_asymm h
    · left
      exact Bool.not_eq_true _ |>.mp h

instance : IsTrans Task Task.leP where
  trans a b c hab hbc := by
    unfold Task.leP at hab hbc ⊢
    by_cases hbc2 : Task.ltB b c = true
    · by_cases hca : Task.ltB c a = true
      · exact absurd (ltB_trans hbc2 hca) (by rw [hab]; simp)
      · exact Bool.not_eq_true _ |>.mp hca
    · have hconn := ltB_conn (Bool.not_eq_true _ |>.mp hbc2) hbc
      have heq : Task.ltB c a = Task.ltB b a := by
        unfold Task.ltB
        rw [← hconn.1, ← hconn.2]
      rw [heq, hab]

instance (key : Task → String) : IsTotal Task (keyLe key) where
  total a b := by
    unfold keyLe
    by_cases h : strLt (key b) (key a) = true
    · right
      exact strLt_asymm h
    · left
      exact Bool.not_eq_true _ |>.mp h

instance (key : Task → String) : IsTrans Task (keyLe key) where
  trans a b c hab hbc := by
    unfold keyLe at hab hbc ⊢
    by_cases hbc2 : strLt (key b) (key c) = true
    · by_cases hca : strLt (key c) (key a) = true
      · exact absurd (strLt_trans hbc2 hca) (by rw [hab]; simp)
      · exact Bool.not_eq_true _ |>.mp hca
    · have hkeq := strLt_conn (Bool.not_eq_true _ |>.mp hbc2) hbc
      rw [← hkeq]
      exact hab

/-- The string comparison is irreflexive. -/
theorem strLt_irrefl (s : String) : strLt s s = false := by
  cases h : strLt s s
  · rfl
  · have := strLt_asymm h
    rw [h] at this
    exact this

/-! ### Sorting facts -/

/-- `tasks.sort()` leaves the list sorted for the relation induced by
`Task.__lt__`. -/
theorem sortTasks_sorted (l : List Task) : List.Sorted Task.leP (sortTasks l) :=
  List.sorted_insertionSort Task.leP l

/-- `tasks.sort()` permutes the list. -/
theorem sortTasks_perm (l : List Task) : (sortTasks l).Perm l :=
  List.perm_insertionSort Task.leP l

/-- Invariant carried through a sequence of `add_task` calls: the stored
list stays sorted, and every stored task keeps a priority that is a key of
the enumeration provided every added priority is. -/
theorem runAddsFrom_inv (today : String) :
    ∀ (calls : List AddCall) (m : TaskManager),
      (∀ c ∈ calls, (PRIORITY_LEVELS c.priority).isSome = true) →
      List.Sorted Task.leP m.tasks →
      (∀ t ∈ m.tasks, (PRIORITY_LEVELS t.priority).isSome = true) →
      List.Sorted Task.leP (runAddsFrom today m calls).tasks ∧
        ∀ t ∈ (runAddsFrom today m calls).tasks,
          (PRIORITY_LEVELS t.priority).isSome = true
  | [], _, _, hs, hv => ⟨hs, hv⟩
  | c :: rest, m, hc, _, hv => by
      apply runAddsFrom_inv today rest _ (fun d hd => hc d (by simp [hd]))
      · exact sortTasks_sorted _
      · intro t ht
        have hmem := (sortTasks_perm _).mem_iff.mp ht
        rcases List.mem_append.mp hmem with hold | hnew
        · exact hv t hold
        · have : t = task_init c.name c.priority c.due_date c.category c.dependencies
              false today := by simpa using hnew
          rw [this]
          exact hc c (by simp)

/-- A sorted list of tasks with enumerated priorities is a chain for the
relation "the later task is not `__lt__`-below the earlier". -/
theorem chain_of_sorted_valid :
    ∀ l : List Task, List.Pairwise Task.leP l →
      (∀ t ∈ l, (PRIORITY_LEVELS t.priority).isSome = true) →
      List.Chain' (fun X Y => Task.lt Y X = Except.ok false) l := by
  intro l hp hv
  induction l with
  | nil => exact List.chain'_nil
  | cons a l ih =>
      rcases List.pairwise_cons.mp hp with ⟨ha, hp'⟩
      have hrest := ih hp' (fun t ht => hv t (by simp [ht]))
      cases l with
      | nil => exact List.chain'_singleton a
      | cons b l' =>
          rw [List.chain'_cons]
          refine ⟨?_, hrest⟩
          have hab : Task.leP a b := ha b (by simp)
          rcases Option.isSome_iff_exists.mp (hv b (by simp)) with ⟨rb, hrb⟩
          rcases Option.isSome_iff_exists.mp (hv a (by simp)) with ⟨ra, hra⟩
          rw [lt_agrees hrb hra]
          unfold Task.leP at hab
          rw [hab]

/-! ### Round-trip facts -/

/-- Reconstructing a serialized task whose iteration cursor is unset and
whose due date is non-empty yields the task back, field for field. -/
theorem from_record_toDict (t : Task) (today : String)
    (hiter : t.iterIndex = none) (hdd : ¬ t.due_date = "") :
    task_from_record (Task.toDict t) today = Except.ok t := by
  cases t with
  | mk n comp p dd cat deps it =>
      obtain rfl : it = none := hiter
      have hdd2 : ¬ dd = "" := hdd
      cases cat with
      | none =>
          have h : task_from_record
              (Task.toDict ⟨n, comp, p, dd, none, deps, none⟩) today =
              Except.ok ⟨n, comp, p, if dd = "" then today else dd, none, deps, none⟩ := rfl
          rw [h, if_neg hdd2]
      | some cv =>
          have h : task_from_record
              (Task.toDict ⟨n, comp, p, dd, some cv, deps, none⟩) today =
              Except.ok ⟨n, comp, p, if dd = "" then today else dd, some cv, deps, none⟩ := rfl
          rw [h, if_neg hdd2]

/-- List version of `from_record_toDict`. -/
theorem load_list_toDict (today : String) :
    ∀ l : List Task, (∀ t ∈ l, t.iterIndex = none ∧ ¬ t.due_date = "") →
      load_list (l.map Task.toDict) today = Except.ok l
  | [], _ => rfl
  | t :: ts, h => by
      have h1 := from_record_toDict t today (h t (by simp)).1 (h t (by simp)).2
      have h2 := load_list_toDict today ts (fun u hu => h u (by simp [hu]))
      simp only [List.map_cons, load_list, h1, h2]
      rfl

/-! ### Completion-marking facts -/

/-- The loop of `mark_task_complete` finds nothing when no stored task
bears the searched name. -/
theorem markFirst_eq_none {name : String} :
    ∀ l : List Task, (∀ t ∈ l, t.name ≠ name) → markFirst name l = none
  | [], _ => rfl
  | t :: ts, h => by
      unfold markFirst
      rw [if_neg (h t (by simp)), markFirst_eq_none ts (fun u hu => h u (by simp [hu]))]
      rfl

/-! ### Stability of the keyed sort -/

/-- Stability: the keyed sort keeps the tasks of any fixed key value in
their original relative order. -/
theorem sort_filter_key (key : Task → String) (l : List Task) (p : String) :
    (List.insertionSort (keyLe key) l).filter (fun t => key t == p) =
      l.filter (fun t => key t == p) := by
  have hall : ∀ t ∈ l.filter (fun t => key t == p), key t = p := by
    intro t ht
    have := List.of_mem_filter ht
    simpa using this
  have hpw : (l.filter (fun t => key t == p)).Pairwise (keyLe key) := by
    apply List.pairwise_of_forall_mem_list
    intro a ha b hb
    unfold keyLe
    rw [hall a ha, hall b hb]
    exact strLt_irrefl p
  have hsub2 : List.Sublist (l.filter (fun t => key t == p))
      (List.insertionSort (keyLe key) l) :=
    List.sublist_insertionSort hpw (List.filter_sublist l)
  have hcc : (l.filter (fun t => key t == p)).filter (fun t => key t == p) =
      l.filter (fun t => key t == p) :=
    List.filter_eq_self.mpr (fun a ha => by simp [hall a ha])
  have hsub3 : List.Sublist (l.filter (fun t => key t == p))
      ((List.insertionSort (keyLe key) l).filter (fun t => key t == p)) := by
    rw [← hcc]
    exact hsub2.filter _
  have hlen : ((List.insertionSort (keyLe key) l).filter (fun t => key t == p)).length =
      (l.filter (fun t => key t == p)).length :=
    ((List.perm_insertionSort (keyLe key) l).filter _).length_eq
  exact (hsub3.eq_of_length hlen.symm).symm

/-- Tasks with equal rank and equal due date are not `__lt__`-related. -/
theorem ltB_of_eq {a b : Task} (hr : a.rankD = b.rankD) (hd : a.due_date = b.due_date) :
    Task.ltB a b = false := by
  unfold Task.ltB
  rw [if_pos hr, hd]
  exact strLt_irrefl _

/-! ### Claims -/

/-- C1, counterexample: after add("Pay bills", high, 2024-01-01) and
add("Clean house", low, default date), `all()` returns the tasks in the
order ["Clean house", "Pay bills"] — not the claimed
["Pay bills", "Clean house"]: the sort is ascending in priority rank, so
the low-priority task comes first. -/
theorem c1_end_to_end_counterexample :
    (TaskManager.get_all_tasks (c1run "2024-06-01")).map Task.name =
      ["Clean house", "Pay bills"] ∧
    (TaskManager.get_all_tasks (c1run "2024-06-01")).map Task.name ≠
      ["Pay bills", "Clean house"] :=
  ⟨by decide, by decide⟩

/-- C1, amended: starting from an empty collection, add("Pay bills", high,
2024-01-01) then add("Clean house", low, default due date) leaves `all()`
returning ["Clean house", "Pay bills"] — the LOW-priority task first,
whatever the current date is, because the auto-sort is ascending in
priority rank. -/
theorem c1_end_to_end_low_first (today : String) :
    (TaskManager.get_all_tasks (c1run today)).map Task.name =
      ["Clean house", "Pay bills"] := rfl

/-- Witness for `c1_end_to_end_low_first` at a concrete current date. -/
theorem c1_end_to_end_low_first_witness :
    (TaskManager.get_all_tasks (c1run "2024-06-01")).map Task.name =
      ["Clean house", "Pay bills"] :=
  c1_end_to_end_low_first "2024-06-01"

/-- C2: after any sequence of `add` calls whose priorities are all in the
fixed enumeration, the stored task sequence is fully sorted by the Task
ordering relation: for every adjacent pair (X, Y) in stored order,
Y < X evaluates (without error) to false. -/
theorem c2_add_keeps_sorted (today : String) (calls : List AddCall)
    (h : ∀ c ∈ calls, (PRIORITY_LEVELS c.priority).isSome = true) :
    List.Chain' (fun X Y => Task.lt Y X = Except.ok false)
      (runAdds today calls).tasks := by
  have hinv := runAddsFrom_inv today calls { tasks := [] } h (by simp) (by simp)
  exact chain_of_sorted_valid _ hinv.1 hinv.2

/-- Witness for `c2_add_keeps_sorted` on a concrete two-call sequence. -/
theorem c2_add_keeps_sorted_witness :
    List.Chain' (fun X Y => Task.lt Y X = Except.ok false)
      (runAdds "2024-06-01"
        [⟨"Pay bills", "high", some "2024-01-01", none, some []⟩,
         ⟨"Clean house", "low", none, none, some []⟩]).tasks :=
  c2_add_keeps_sorted "2024-06-01" _ (by decide)

/-- C3, counterexample: on a collection holding one task whose dependency
iteration has been started, save followed by load does not reproduce the
collection — load raises TypeError on the serialized `_iter_index`
entry. -/
theorem c3_round_trip_counterexample :
    TaskManager.load_tasks (TaskManager.save_tasks exIterMgr) "2024-01-01" =
      Except.error TaskError.typeError := rfl

/-- C3, amended: for every collection in which no task carries the
transient iteration-cursor attribute and no task has an empty due-date
string, save followed by load from the same path reproduces the collection
exactly — same length, and every observable field (name, completed,
priority, due_date, category, dependencies) equal to its pre-save
value. -/
theorem c3_round_trip (m : TaskManager) (today : String)
    (h : ∀ t ∈ m.tasks, t.iterIndex = none ∧ ¬ t.due_date = "") :
    TaskManager.load_tasks (TaskManager.save_tasks m) today = Except.ok m := by
  cases m with
  | mk tasks =>
      unfold TaskManager.load_tasks TaskManager.save_tasks
      rw [load_list_toDict today tasks h]
      rfl

/-- Witness for `c3_round_trip` on a concrete one-task collection. -/
theorem c3_round_trip_witness :
    TaskManager.load_tasks (TaskManager.save_tasks exMgrA) "2024-06-01" =
      Except.ok exMgrA :=
  c3_round_trip exMgrA "2024-06-01" (by decide)

/-- C4: evaluation at the failing input. For a task whose dependency
sequence has been iterated before the save, the saved record does NOT
contain exactly the six claimed fields: it additionally contains the
transient `_iter_index` cursor (Python serializes the whole instance
dictionary), and loading that record back fails with TypeError. -/
theorem c4_cursor_serialized :
    (TaskManager.save_tasks exIterMgr).map (fun r => r.map Prod.fst) =
      [["name", "completed", "priority", "due_date", "category",
        "dependencies", "_iter_index"]] ∧
    TaskManager.load_tasks (TaskManager.save_tasks exIterMgr) "2024-02-02" =
      Except.error TaskError.typeError :=
  ⟨by decide, rfl⟩

/-- C5, counterexample: constructing a Task with the out-of-enumeration
priority "urgent" does not fail — `__init__` performs no validation and
returns a task storing that priority verbatim. -/
theorem c5_construction_accepts_invalid :
    task_init "T" "urgent" none none none false "2024-01-01" =
      ⟨"T", false, "urgent", "2024-01-01", none, [], none⟩ := rfl

/-- C5, amended: comparing tasks via the ordering relation fails with
InvalidPriority (KeyError) whenever either operand's priority is outside
the fixed enumeration, but construction never validates: the constructed
task stores whatever priority value it was given. -/
theorem c5_invalid_priority (a b : Task) (name p : String) (dd cat : Option String)
    (deps : Option (List String)) (comp : Bool) (today : String)
    (h : PRIORITY_LEVELS a.priority = none ∨ PRIORITY_LEVELS b.priority = none) :
    Task.lt a b = Except.error TaskError.invalidPriority ∧
    (task_init name p dd cat deps comp today).priority = p := by
  refine ⟨?_, rfl⟩
  unfold Task.lt
  cases ha : PRIORITY_LEVELS a.priority with
  | none =>
      cases hb : PRIORITY_LEVELS b.priority with
      | none => rfl
      | some rb => rfl
  | some ra =>
      cases hb : PRIORITY_LEVELS b.priority with
      | none => rfl
      | some rb =>
          rcases h with h | h
          · rw [ha] at h
            exact absurd h (by simp)
          · rw [hb] at h
            exact absurd h (by simp)

/-- Witness for `c5_invalid_priority` at concrete tasks. -/
theorem c5_invalid_priority_witness :
    Task.lt (task_init "T" "urgent" none none none false "2024-01-01")
        (task_init "U" "low" none none none false "2024-01-01") =
      Except.error TaskError.invalidPriority ∧
    (task_init "T" "urgent" none none none false "2024-01-01").priority = "urgent" :=
  c5_invalid_priority _ _ "T" "urgent" none none none false "2024-01-01"
    (Or.inl (by decide))

/-- C6, counterexample: calling mark-complete with an empty name on a
one-task collection raises nothing: it returns the ordinary not-found
message and leaves the collection unchanged, instead of failing with an
InvalidInput error as claimed. -/
theorem c6_empty_name_no_error :
    TaskManager.mark_task_complete exMgrA "" =
      (exMgrA, "Task \x27\x27 not found.") := by decide

/-- C6, amended: the collection-level mark-complete operation applies no
name validation at all: called with an empty or whitespace-only name, it
performs the normal first-exact-match lookup, and when no stored task
bears that exact name it mutates nothing and returns the not-found
message. -/
theorem c6_mark_complete_unvalidated (m : TaskManager) (name : String)
    (_hname : name.data.all Char.isWhitespace = true)
    (h : ∀ t ∈ m.tasks, t.name ≠ name) :
    TaskManager.mark_task_complete m name =
      (m, "Task \x27" ++ name ++ "\x27 not found.") := by
  unfold TaskManager.mark_task_complete
  rw [markFirst_eq_none m.tasks h]

/-- Witness for `c6_mark_complete_unvalidated` at a whitespace-only
name. -/
theorem c6_mark_complete_unvalidated_witness :
    TaskManager.mark_task_complete exMgrA " " =
      (exMgrA, "Task \x27 \x27 not found.") :=
  c6_mark_complete_unvalidated exMgrA " " (by decide) (by decide)

/-- C7, counterexample: the default sort places a high-priority task
BEFORE a low-priority one ("high" < "low" alphabetically), refuting the
claim that every low-priority task precedes every high-priority task. -/
theorem c7_default_sort_counterexample :
    ((TaskManager.sort_tasks_default { tasks := [exLow, exHigh] }).tasks.map Task.name) =
      ["H", "L"] ∧
    ((TaskManager.sort_tasks_default { tasks := [exLow, exHigh] }).tasks.map Task.name) ≠
      ["L", "H"] :=
  ⟨by decide, by decide⟩

/-- C7, amended: the sort operation with no explicit key selector reorders
the stored sequence by the lexicographic string order of the priority
value itself (so alphabetically: "high" before "low" before "medium"),
not by priority rank; the reordering is a permutation, and tasks with
equal priority keep their original relative order (stable ties). -/
theorem c7_sort_by_priority_string (m : TaskManager) :
    List.Sorted (keyLe (fun t => t.priority)) (TaskManager.sort_tasks_default m).tasks ∧
    (TaskManager.sort_tasks_default m).tasks.Perm m.tasks ∧
    ∀ p : String,
      (TaskManager.sort_tasks_default m).tasks.filter (fun t => t.priority == p) =
        m.tasks.filter (fun t => t.priority == p) := by
  refine ⟨?_, ?_, ?_⟩
  · exact List.sorted_insertionSort _ _
  · exact List.perm_insertionSort _ _
  · intro p
    exact sort_filter_key (fun t => t.priority) m.tasks p

/-- Witness for `c7_sort_by_priority_string` on a concrete three-task
collection. -/
theorem c7_sort_by_priority_string_witness :
    List.Sorted (keyLe (fun t => t.priority))
      (TaskManager.sort_tasks_default { tasks := [exLow, exMed, exHigh] }).tasks ∧
    (TaskManager.sort_tasks_default { tasks := [exLow, exMed, exHigh] }).tasks.Perm
      [exLow, exMed, exHigh] ∧
    (TaskManager.sort_tasks_default { tasks := [exLow, exMed, exHigh] }).tasks.filter
        (fun t => t.priority == "low") =
      [exLow, exMed, exHigh].filter (fun t => t.priority == "low") :=
  ⟨(c7_sort_by_priority_string { tasks := [exLow, exMed, exHigh] }).1,
   (c7_sort_by_priority_string { tasks := [exLow, exMed, exHigh] }).2.1,
   (c7_sort_by_priority_string { tasks := [exLow, exMed, exHigh] }).2.2 "low"⟩

/-- C8: merging tasks A and B produces a new Task named
"A.name & B.name" whose dependency list carries exactly the set union of
both dependency lists without duplicates, and whose remaining fields take
the defaults: priority medium, due date today, no category, not
completed; in particular merging dependency lists ["x","y"] and
["y","z"] yields 3 dependencies, not 4. -/
theorem c8_merge (a b : Task) (today : String) :
    (Task.add a b today).name = a.name ++ " & " ++ b.name ∧
    (Task.add a b today).dependencies.toFinset =
      a.dependencies.toFinset ∪ b.dependencies.toFinset ∧
    (Task.add a b today).dependencies.Nodup ∧
    (Task.add a b today).priority = "medium" ∧
    (Task.add a b today).due_date = today ∧
    (Task.add a b today).category = none ∧
    (Task.add a b today).completed = false ∧
    (Task.add exDepA exDepB today).dependencies.length = 3 := by
  refine ⟨rfl, ?_, ?_, rfl, rfl, rfl, rfl, rfl⟩
  · show ((a.dependencies ++ b.dependencies).dedup).toFinset = _
    apply Finset.ext
    intro x
    simp [List.mem_toFinset, List.mem_dedup, List.mem_append]
  · exact List.nodup_dedup _

/-- Witness for `c8_merge` at the concrete merge operands. -/
theorem c8_merge_witness :
    (Task.add exDepA exDepB "2024-06-01").name = exDepA.name ++ " & " ++ exDepB.name ∧
    (Task.add exDepA exDepB "2024-06-01").dependencies.toFinset =
      exDepA.dependencies.toFinset ∪ exDepB.dependencies.toFinset ∧
    (Task.add exDepA exDepB "2024-06-01").dependencies.Nodup ∧
    (Task.add exDepA exDepB "2024-06-01").priority = "medium" ∧
    (Task.add exDepA exDepB "2024-06-01").due_date = "2024-06-01" ∧
    (Task.add exDepA exDepB "2024-06-01").category = none ∧
    (Task.add exDepA exDepB "2024-06-01").completed = false ∧
    (Task.add exDepA exDepB "2024-06-01").dependencies.length = 3 :=
  c8_merge exDepA exDepB "2024-06-01"

/-- C9: for tasks with enumerated priorities and well-formed YYYY-MM-DD
due dates, exactly one of A < B, B < A, or "same priority rank and same
due-date string" holds — the ordering relation is a strict weak
ordering. -/
theorem c9_trichotomy (a b : Task)
    (ha : (PRIORITY_LEVELS a.priority).isSome = true)
    (hb : (PRIORITY_LEVELS b.priority).isSome = true)
    (_hda : isYMD a.due_date = true) (_hdb : isYMD b.due_date = true) :
    (Task.lt a b = Except.ok true ∧ ¬ Task.lt b a = Except.ok true ∧
      ¬ (a.rankD = b.rankD ∧ a.due_date = b.due_date)) ∨
    (¬ Task.lt a b = Except.ok true ∧ Task.lt b a = Except.ok true ∧
      ¬ (a.rankD = b.rankD ∧ a.due_date = b.due_date)) ∨
    (¬ Task.lt a b = Except.ok true ∧ ¬ Task.lt b a = Except.ok true ∧
      (a.rankD = b.rankD ∧ a.due_date = b.due_date)) := by
  rcases Option.isSome_iff_exists.mp ha with ⟨ra, hra⟩
  rcases Option.isSome_iff_exists.mp hb with ⟨rb, hrb⟩
  rw [lt_agrees hra hrb, lt_agrees hrb hra]
  simp only [Except.ok.injEq]
  by_cases hr : a.rankD = b.rankD
  · cases h1 : Task.ltB a b <;> cases h2 : Task.ltB b a
    · right; right
      have hc := ltB_conn h1 h2
      exact ⟨by simp, by simp, hc⟩
    · right; left
      refine ⟨by simp, rfl, fun hcon => ?_⟩
      have := ltB_of_eq (b := a) hcon.1.symm hcon.2.symm
      rw [h2] at this
      exact Bool.noConfusion this
    · left
      refine ⟨rfl, by simp, fun hcon => ?_⟩
      have := ltB_of_eq (b := b) hcon.1 hcon.2
      rw [h1] at this
      exact Bool.noConfusion this
    · exfalso
      have := ltB_asymm h1
      rw [h2] at this
      exact Bool.noConfusion this
  · have e1 : Task.ltB a b = decide (a.rankD < b.rankD) := by
      unfold Task.ltB
      rw [if_neg hr]
    have e2 : Task.ltB b a = decide (b.rankD < a.rankD) := by
      unfold Task.ltB
      rw [if_neg (fun hc => hr hc.symm)]
    by_cases hlt : a.rankD < b.rankD
    · left
      refine ⟨?_, ?_, fun hcon => hr hcon.1⟩
      · rw [e1]
        simp [hlt]
      · rw [e2]
        simp only [decide_eq_true_eq]
        omega
    · right; left
      refine ⟨?_, ?_, fun hcon => hr hcon.1⟩
      · rw [e1]
        simp [hlt]
      · rw [e2]
        simp only [decide_eq_true_eq]
        omega

/-- Witness for `c9_trichotomy` at a concrete low/high pair. -/
theorem c9_trichotomy_witness :
    (Task.lt exLow exHigh = Except.ok true ∧ ¬ Task.lt exHigh exLow = Except.ok true ∧
      ¬ (exLow.rankD = exHigh.rankD ∧ exLow.due_date = exHigh.due_date)) ∨
    (¬ Task.lt exLow exHigh = Except.ok true ∧ Task.lt exHigh exLow = Except.ok true ∧
      ¬ (exLow.rankD = exHigh.rankD ∧ exLow.due_date = exHigh.due_date)) ∨
    (¬ Task.lt exLow exHigh = Except.ok true ∧ ¬ Task.lt exHigh exLow = Except.ok true ∧
      (exLow.rankD = exHigh.rankD ∧ exLow.due_date = exHigh.due_date)) :=
  c9_trichotomy exLow exHigh (by decide) (by decide) (by decide) (by decide)

/-- C10: every invocation of the entity-level mark_completed operation
raises ValueError and reaches no mutation: the validate wrapper inspects
the call's positional arguments, the bound method passes none, so the
check fails unconditionally and the method body never runs. -/
theorem c10_mark_completed_raises (t : Task) :
    Task.mark_completed t = Except.error TaskError.invalidInput := rfl

/-- Witness for `c10_mark_completed_raises` at a concrete task. -/
theorem c10_mark_completed_raises_witness :
    Task.mark_completed exLow = Except.error TaskError.invalidInput :=
  c10_mark_completed_raises exLow

end TaskTracker
